import Mathlib

/-!
Verification of the soroban replicated-directory subsystem.

The definitions below are a shallow embedding of `services/directory.go`:
the request/response types, the two `VerifySignature` methods, the
`Directory.List` / `Directory.Add` / `Directory.Remove` handlers and the
replicator loop body of `StartP2PDirectory`.  Time instants and durations
are `Int` nanoseconds (Go `int64` / `time.Duration`).  Components that the
repository uses but whose source is outside this tree (the `confidential`
package, the storage backend, the `Response` type) are modelled from the
spec and marked as such in their doc comments.
-/

/-- Modelled from the spec: the per-namespace policy record returned by the
external lookup `confidential.GetConfidentialInfo` (spec section 3, Policy);
the `confidential` package is not part of the sources here.  The Go field
`Prefix` is rendered as `pfx`. -/
structure ConfidentialEntry where
  pfx : String
  algorithm : String
  publicKey : String
  confidential : Bool
  readOnly : Bool
deriving DecidableEq

/-- Request payload of `Directory.List` (struct `DirectoryEntries` in
`directory.go`); `timestamp` is epoch nanoseconds. -/
structure DirectoryEntries where
  name : String
  limit : Int
  publicKey : String
  algorithm : String
  signature : String
  timestamp : Int
deriving DecidableEq

/-- Request payload of `Directory.Add` / `Directory.Remove` (struct
`DirectoryEntry` in `directory.go`). -/
structure DirectoryEntry where
  name : String
  entry : String
  mode : String
  publicKey : String
  algorithm : String
  signature : String
  timestamp : Int
deriving DecidableEq

/-- Modelled from the spec: the write response `{status: success|error}`
(spec section 6); the Go `Response` type is declared outside these sources.
Its Go zero value has an empty status string. -/
structure Response where
  status : String
deriving DecidableEq

/-- The Go zero value of `Response`: a handler that returns without writing
`*result` leaves the RPC reply at this value. -/
def zeroResponse : Response := { status := "" }

/-- Response of `Directory.List` (struct `DirectoryEntriesResponse`).
`entries` is an `Option`: `none` models a nil Go slice (serialized as JSON
null), `some` a non-nil slice. -/
structure DirectoryEntriesResponse where
  name : String
  entries : Option (List String)
deriving DecidableEq

/-- The Go zero value of `DirectoryEntriesResponse`: empty name, nil slice. -/
def zeroEntriesResponse : DirectoryEntriesResponse := { name := "", entries := none }

/-- Outcome of signature verification.  The Go methods return `nil` on
success or one of three distinct errors: "PublicKey not allowed",
"timestamp not in time range", or the error of the cryptographic check. -/
inductive VerifyResult where
  | ok
  | keyMismatch
  | timestampOutOfRange
  | badSignature
deriving DecidableEq

/-- Modelled from the spec: the cryptographic check
`confidential.VerifySignature` (spec section 4.2 step 4), whose source is
outside this tree, as an abstract oracle.  The arguments mirror the Go
call: policy entry, public key, canonical message, algorithm, signature. -/
def SigOracle := ConfidentialEntry → String → String → String → String → Bool

/-- `timeInRange` from `directory.go`: `check.After(start) && check.Before(stop)`,
both comparisons strict. -/
def timeInRange (start stop check : Int) : Bool :=
  decide (start < check) && decide (check < stop)

/-- 24 hours in nanoseconds: the `delta` of both `VerifySignature` methods. -/
def deltaNs : Int := 24 * 60 * 60 * 1000000000

/-- The unmanaged-policy test that opens both `VerifySignature` methods:
empty policy field means no signature is required. -/
def unmanaged (info : ConfidentialEntry) : Bool :=
  decide (info.pfx.length = 0) || decide (info.algorithm.length = 0) ||
    decide (info.publicKey.length = 0)

/-- Canonical message signed for a List request:
`fmt.Sprintf("%v.%v", p.Name, p.Timestamp/1000000)`, with Go `int64`
truncating division (`Int.tdiv`). -/
def listMessage (p : DirectoryEntries) : String :=
  p.name ++ "." ++ toString (Int.tdiv p.timestamp 1000000)

/-- Canonical message signed for an Add/Remove request:
`fmt.Sprintf("%s.%d.%s", p.Name, p.Timestamp, p.Entry)`. -/
def entryMessage (p : DirectoryEntry) : String :=
  p.name ++ "." ++ toString p.timestamp ++ "." ++ p.entry

/-- `(p *DirectoryEntries) VerifySignature` from `directory.go`: unmanaged
policies pass unconditionally; then the claimed key is compared with the
pinned key, then the timestamp window is checked, and only then the
cryptographic signature.  `now` is the instant `time.Now()` returns. -/
def DirectoryEntries.VerifySignature (sigOk : SigOracle) (now : Int)
    (p : DirectoryEntries) (info : ConfidentialEntry) : VerifyResult :=
  if unmanaged info = true then VerifyResult.ok
  else if p.publicKey ≠ info.publicKey then VerifyResult.keyMismatch
  else if timeInRange (now - deltaNs) (now + deltaNs) p.timestamp = false then
    VerifyResult.timestampOutOfRange
  else if sigOk info p.publicKey (listMessage p) p.algorithm p.signature = true then
    VerifyResult.ok
  else VerifyResult.badSignature

/-- `(p *DirectoryEntry) VerifySignature` from `directory.go`: the same
check order as for `DirectoryEntries`, over the Add/Remove canonical
message. -/
def DirectoryEntry.VerifySignature (sigOk : SigOracle) (now : Int)
    (p : DirectoryEntry) (info : ConfidentialEntry) : VerifyResult :=
  if unmanaged info = true then VerifyResult.ok
  else if p.publicKey ≠ info.publicKey then VerifyResult.keyMismatch
  else if timeInRange (now - deltaNs) (now + deltaNs) p.timestamp = false then
    VerifyResult.timestampOutOfRange
  else if sigOk info p.publicKey (entryMessage p) p.algorithm p.signature = true then
    VerifyResult.ok
  else VerifyResult.badSignature

/-- Modelled from the spec: the external DirectoryStore (spec sections 3
and 6) as an in-memory multiset of (namespace, value, ttl) records;
duplicate values under one namespace are allowed and store calls never
fail in this model. -/
abbrev DirStore := List (String × String × Int)

/-- Store contract `add(name, value, ttl)`: record one more value. -/
def DirStore.add (s : DirStore) (name value : String) (ttl : Int) : DirStore :=
  (name, value, ttl) :: s

/-- Store contract `remove(name, value)`: drop the value from the namespace. -/
def DirStore.remove (s : DirStore) (name value : String) : DirStore :=
  s.filter fun e => !(e.1 == name && e.2.1 == value)

/-- Store contract `list(name)`: all values currently held for the namespace. -/
def DirStore.list (s : DirStore) (name : String) : List String :=
  (s.filter fun e => e.1 == name).map fun e => e.2.1

/-- Swap of two positions, as the callback that `Directory.List` hands to
`rand.Shuffle` performs (`entries[i], entries[j] = entries[j], entries[i]`);
out-of-range indices leave the list unchanged (never hit by the caller). -/
def swapList {α : Type} (l : List α) (i j : Nat) : List α :=
  match l.get? i, l.get? j with
  | some a, some b => (l.set i b).set j a
  | _, _ => l

/-- The Fisher-Yates loop of Go `rand.Shuffle`: for `i := n-1` down to `1`,
swap position `i` with a drawn position `j` in `[0, i]`.  The random draws
come from the oracle `r`; the draw at step `i` is `r i % (i+1)`, which is
always in range. -/
def shuffleAux {α : Type} (r : Nat → Nat) : List α → Nat → List α
  | l, 0 => l
  | l, i + 1 => shuffleAux r (swapList l (i + 1) (r (i + 1) % (i + 2))) i

/-- `rand.Shuffle(len(entries), swap)` over a list, with random oracle `r`. -/
def shuffleGo {α : Type} (r : Nat → Nat) (l : List α) : List α :=
  shuffleAux r l (l.length - 1)

/-- The `Directory.List` handler from `directory.go`.  `info` is the policy
that `confidential.GetConfidentialInfo(args.Name, args.PublicKey)` resolves
for this request; `fetch` is the outcome of the backend call
`directory.List(args.Name)` (`Except.error`: backend error, `Except.ok none`:
nil slice, `Except.ok (some l)`: non-nil slice).  On the confidential-gate
failure path and on a backend error the Go code returns without writing
`*result`, so the caller sees the zero response.  When the fetch yields a
nil slice the limit branch cannot fire (its guard would need a negative
limit to exceed a positive one) and the nil guard substitutes an empty
slice; when it yields a non-nil slice, shuffling and truncating keep the
slice non-nil, so the nil guard is a no-op. -/
def Directory.List (sigOk : SigOracle) (now : Int) (info : ConfidentialEntry)
    (fetch : Except String (Option (List String))) (r : Nat → Nat)
    (args : DirectoryEntries) : DirectoryEntriesResponse :=
  if info.confidential = true ∧
      DirectoryEntries.VerifySignature sigOk now args info ≠ VerifyResult.ok then
    zeroEntriesResponse
  else
    match fetch with
    | Except.error _ => zeroEntriesResponse
    | Except.ok none => { name := args.name, entries := some [] }
    | Except.ok (some l) =>
      if 0 < args.limit ∧ args.limit < (l.length : Int) then
        { name := args.name, entries := some ((shuffleGo r l).take args.limit.toNat) }
      else
        { name := args.name, entries := some l }

/-- The `Directory.Add` handler from `directory.go`, returning the store
after the call and the RPC response.  `ttl` models the backend map
`directory.TimeToLive(mode)`; the store model never fails, so the
store-error branch is unreachable here, and the p2p publish that follows a
successful write never changes the store or the returned status. -/
def Directory.Add (sigOk : SigOracle) (now : Int) (info : ConfidentialEntry)
    (ttl : String → Int) (store : DirStore) (args : DirectoryEntry) :
    DirStore × Response :=
  if info.readOnly = true ∧
      DirectoryEntry.VerifySignature sigOk now args info ≠ VerifyResult.ok then
    (store, { status := "error" })
  else
    (DirStore.add store args.name args.entry (ttl args.mode), { status := "success" })

/-- The `Directory.Remove` handler from `directory.go`.  On a failed
signature check the Go code logs and returns without writing `*result`, so
the caller sees the zero response; otherwise the value is removed (the
store model never fails, so the status is "success") and the p2p publish
changes nothing observable here. -/
def Directory.Remove (sigOk : SigOracle) (now : Int) (info : ConfidentialEntry)
    (store : DirStore) (args : DirectoryEntry) : DirStore × Response :=
  if info.readOnly = true ∧
      DirectoryEntry.VerifySignature sigOk now args info ≠ VerifyResult.ok then
    (store, zeroResponse)
  else
    (DirStore.remove store args.name args.entry, { status := "success" })

/-- An inbound gossip message as the replicator loop sees it: the message
context and the outcome of `message.ParsePayload(&args)` (`Except.error`
models a malformed payload). -/
structure P2PMessage where
  context : String
  payload : Except String DirectoryEntry

/-- 15 minutes in nanoseconds: the startup value of `timeoutDelay`. -/
def fifteenMinutes : Int := 15 * 60 * 1000000000

/-- 3 minutes in nanoseconds: `timeoutDelay` after a heartbeat is seen. -/
def threeMinutes : Int := 3 * 60 * 1000000000

/-- The state owned by the loop in `StartP2PDirectory`, together with the
directory store it writes through; `terminated` models `os.Exit(0)` and is
absorbing (a dead process takes no further steps). -/
structure LoopState where
  timeoutDelay : Int
  lastHeartbeat : Int
  store : DirStore
  terminated : Bool
deriving DecidableEq

/-- The loop state on entry: 15-minute timeout, `lastHeartbeatTimestamp`
initialized to the current instant. -/
def initialLoopState (now : Int) (store : DirStore) : LoopState :=
  { timeoutDelay := fifteenMinutes, lastHeartbeat := now, store := store,
    terminated := false }

/-- The two event sources of the select loop that change state: an inbound
peer message and the 30-second tick.  The third select arm, `ctx.Done()`,
exits the loop without touching the state and is not represented. -/
inductive LoopEvent where
  | msg (m : P2PMessage)
  | tick

/-- One iteration of the select loop of `StartP2PDirectory`, taken at
instant `now`.  A malformed payload is logged and skipped; a payload named
"p2p.heartbeat" only refreshes the liveness pair; otherwise the switch on
the message context applies the payload to the store (`ttl` models
`directory.TimeToLive`).  On a tick, silence longer than `timeoutDelay`
terminates the process; otherwise a heartbeat is published, which changes
no state here. -/
def replicatorStep (ttl : String → Int) (now : Int) (s : LoopState)
    (e : LoopEvent) : LoopState :=
  if s.terminated = true then s
  else
    match e with
    | LoopEvent.msg m =>
      match m.payload with
      | Except.error _ => s
      | Except.ok args =>
        if args.name = "p2p.heartbeat" then
          { s with timeoutDelay := threeMinutes, lastHeartbeat := now }
        else if m.context = "Directory.Add" then
          { s with store := DirStore.add s.store args.name args.entry (ttl args.mode) }
        else if m.context = "Directory.Remove" then
          { s with store := DirStore.remove s.store args.name args.entry }
        else s
    | LoopEvent.tick =>
      if now - s.lastHeartbeat > s.timeoutDelay then { s with terminated := true }
      else s

/-- The loop run over a trace of timestamped events. -/
def runLoop (ttl : String → Int) : LoopState → List (Int × LoopEvent) → LoopState
  | s, [] => s
  | s, (t, e) :: tr => runLoop ttl (replicatorStep ttl t s e) tr

/-! Helper lemmas shared by the claim theorems. -/

lemma verifyEntries_ok_of_valid (sigOk : SigOracle) (now : Int)
    (p : DirectoryEntries) (info : ConfidentialEntry)
    (hk : p.publicKey = info.publicKey)
    (ht : timeInRange (now - deltaNs) (now + deltaNs) p.timestamp = true)
    (hs : sigOk info p.publicKey (listMessage p) p.algorithm p.signature = true) :
    DirectoryEntries.VerifySignature sigOk now p info = VerifyResult.ok := by
  unfold DirectoryEntries.VerifySignature
  by_cases hu : unmanaged info = true
  · rw [if_pos hu]
  · rw [if_neg hu, if_neg (by simp [hk]), if_neg (by simp [ht]), if_pos hs]

lemma verifyEntry_ok_of_valid (sigOk : SigOracle) (now : Int)
    (p : DirectoryEntry) (info : ConfidentialEntry)
    (hk : p.publicKey = info.publicKey)
    (ht : timeInRange (now - deltaNs) (now + deltaNs) p.timestamp = true)
    (hs : sigOk info p.publicKey (entryMessage p) p.algorithm p.signature = true) :
    DirectoryEntry.VerifySignature sigOk now p info = VerifyResult.ok := by
  unfold DirectoryEntry.VerifySignature
  by_cases hu : unmanaged info = true
  · rw [if_pos hu]
  · rw [if_neg hu, if_neg (by simp [hk]), if_neg (by simp [ht]), if_pos hs]

lemma swapList_length {α : Type} (l : List α) (i j : Nat) :
    (swapList l i j).length = l.length := by
  unfold swapList
  cases l.get? i <;> cases l.get? j <;> simp [List.length_set]

lemma swapList_mem {α : Type} {l : List α} {x : α} {i j : Nat}
    (h : x ∈ swapList l i j) : x ∈ l := by
  unfold swapList at h
  revert h
  cases hi : l.get? i with
  | none => cases l.get? j <;> exact id
  | some a =>
    cases hj : l.get? j with
    | none => exact id
    | some b =>
      intro h
      rcases List.mem_or_eq_of_mem_set h with h1 | rfl
      · rcases List.mem_or_eq_of_mem_set h1 with h2 | rfl
        · exact h2
        · exact List.get?_mem hj
      · exact List.get?_mem hi

lemma shuffleAux_length {α : Type} (r : Nat → Nat) :
    ∀ (n : Nat) (l : List α), (shuffleAux r l n).length = l.length := by
  intro n
  induction n with
  | zero => intro l; rfl
  | succ i ih =>
    intro l
    simp only [shuffleAux]
    rw [ih, swapList_length]

lemma shuffleAux_mem {α : Type} (r : Nat → Nat) :
    ∀ (n : Nat) (l : List α) (x : α), x ∈ shuffleAux r l n → x ∈ l := by
  intro n
  induction n with
  | zero => intro l x h; exact h
  | succ i ih =>
    intro l x h
    simp only [shuffleAux] at h
    exact swapList_mem (ih _ x h)

lemma shuffleGo_length {α : Type} (r : Nat → Nat) (l : List α) :
    (shuffleGo r l).length = l.length :=
  shuffleAux_length r (l.length - 1) l

lemma shuffleGo_mem {α : Type} {r : Nat → Nat} {l : List α} {x : α}
    (h : x ∈ shuffleGo r l) : x ∈ l :=
  shuffleAux_mem r (l.length - 1) l x h

lemma digitChar_ne_dot (m : Nat) : Nat.digitChar m ≠ '.' := by
  rcases Nat.lt_or_ge m 16 with h | h
  · interval_cases m <;> decide
  · unfold Nat.digitChar
    repeat rw [if_neg (by omega)]
    decide

lemma toDigitsCore_chars (b : Nat) :
    ∀ (fuel n : Nat) (acc : List Char) (c : Char),
      c ∈ Nat.toDigitsCore b fuel n acc → c ∈ acc ∨ ∃ m, c = Nat.digitChar m := by
  intro fuel
  induction fuel with
  | zero => intro n acc c h; simp only [Nat.toDigitsCore] at h; exact Or.inl h
  | succ f ih =>
    intro n acc c h
    simp only [Nat.toDigitsCore] at h
    by_cases h0 : n / b = 0
    · rw [if_pos h0] at h
      rcases List.mem_cons.mp h with rfl | h1
      · exact Or.inr ⟨n % b, rfl⟩
      · exact Or.inl h1
    · rw [if_neg h0] at h
      rcases ih (n / b) (Nat.digitChar (n % b) :: acc) c h with h1 | h1
      · rcases List.mem_cons.mp h1 with rfl | h2
        · exact Or.inr ⟨n % b, rfl⟩
        · exact Or.inl h2
      · exact Or.inr h1

lemma dot_not_mem_nat_repr (n : Nat) : '.' ∉ (Nat.repr n).data := by
  intro h
  have h2 : '.' ∈ Nat.toDigitsCore 10 (n + 1) n [] := by
    simpa [Nat.repr, Nat.toDigits, List.asString] using h
  rcases toDigitsCore_chars 10 (n + 1) n [] '.' h2 with h3 | ⟨m, hm⟩
  · simp at h3
  · exact digitChar_ne_dot m hm.symm

lemma toString_int_eq_repr (i : Int) : toString i = Int.repr i := rfl

lemma dot_not_mem_int_toString (i : Int) : '.' ∉ (toString i).data := by
  intro h
  rw [toString_int_eq_repr] at h
  cases i with
  | ofNat n => exact dot_not_mem_nat_repr n (by simpa [Int.repr] using h)
  | negSucc n =>
    have h2 : '.' ∈ ("-" ++ Nat.repr (n + 1)).data := by
      simpa [Int.repr] using h
    rw [String.data_append] at h2
    rcases List.mem_append.mp h2 with h3 | h3
    · simp at h3
    · exact dot_not_mem_nat_repr (n + 1) h3

lemma replicatorStep_heartbeat (ttl : String → Int) (now : Int) (s : LoopState)
    (m : P2PMessage) (args : DirectoryEntry) (hterm : s.terminated = false)
    (hp : m.payload = Except.ok args) (hname : args.name = "p2p.heartbeat") :
    replicatorStep ttl now s (LoopEvent.msg m)
      = { s with timeoutDelay := threeMinutes, lastHeartbeat := now } := by
  obtain ⟨ctx, pl⟩ := m
  cases hp
  simp [replicatorStep, hterm, hname]

lemma replicatorStep_delay_cases (ttl : String → Int) (now : Int) (s : LoopState)
    (e : LoopEvent) :
    (replicatorStep ttl now s e).timeoutDelay = s.timeoutDelay ∨
    (replicatorStep ttl now s e).timeoutDelay = threeMinutes := by
  unfold replicatorStep
  by_cases hterm : s.terminated = true
  · rw [if_pos hterm]; exact Or.inl rfl
  · rw [if_neg hterm]
    cases e with
    | tick =>
      by_cases hq : now - s.lastHeartbeat > s.timeoutDelay
      · simp [hq]
      · simp [hq]
    | msg m =>
      obtain ⟨ctx, pl⟩ := m
      cases pl with
      | error err => exact Or.inl rfl
      | ok args =>
        by_cases hhb : args.name = "p2p.heartbeat"
        · simp [hhb]
        · by_cases hadd : ctx = "Directory.Add"
          · simp [hhb, hadd]
          · by_cases hrem : ctx = "Directory.Remove"
            · simp [hhb, hadd, hrem]
            · simp [hhb, hadd, hrem]

lemma replicatorStep_delay_three (ttl : String → Int) (now : Int) (s : LoopState)
    (e : LoopEvent) (h : s.timeoutDelay = threeMinutes) :
    (replicatorStep ttl now s e).timeoutDelay = threeMinutes := by
  rcases replicatorStep_delay_cases ttl now s e with h1 | h1
  · rw [h1, h]
  · exact h1

lemma runLoop_delay_three (ttl : String → Int) :
    ∀ (tr : List (Int × LoopEvent)) (s : LoopState),
      s.timeoutDelay = threeMinutes → (runLoop ttl s tr).timeoutDelay = threeMinutes := by
  intro tr
  induction tr with
  | nil => intro s h; exact h
  | cons te tr ih =>
    intro s h
    exact ih _ (replicatorStep_delay_three ttl te.1 s te.2 h)

lemma replicatorStep_tick_lastHeartbeat (ttl : String → Int) (now : Int)
    (s : LoopState) :
    (replicatorStep ttl now s LoopEvent.tick).lastHeartbeat = s.lastHeartbeat := by
  unfold replicatorStep
  by_cases hterm : s.terminated = true
  · rw [if_pos hterm]
  · rw [if_neg hterm]
    by_cases hq : now - s.lastHeartbeat > s.timeoutDelay
    · simp [hq]
    · simp [hq]

lemma runLoop_lastHeartbeat_of_ticks (ttl : String → Int) :
    ∀ (tr : List (Int × LoopEvent)) (s : LoopState),
      (∀ te ∈ tr, te.2 = LoopEvent.tick) →
      (runLoop ttl s tr).lastHeartbeat = s.lastHeartbeat := by
  intro tr
  induction tr with
  | nil => intro s _; rfl
  | cons te tr ih =>
    intro s h
    have h1 : te.2 = LoopEvent.tick := h te (List.mem_cons_self te tr)
    have h2 : ∀ u ∈ tr, u.2 = LoopEvent.tick := fun u hu => h u (List.mem_cons_of_mem te hu)
    show (runLoop ttl (replicatorStep ttl te.1 s te.2) tr).lastHeartbeat = s.lastHeartbeat
    rw [ih _ h2, h1, replicatorStep_tick_lastHeartbeat]

/-! Concrete fixtures used by the witness and counterexample theorems. -/

/-- A cryptographic oracle that rejects every signature (no or garbage
signature material). -/
def oracleReject : SigOracle := fun _ _ _ _ _ => false

/-- A cryptographic oracle that accepts every signature (stands for a
correctly produced signature). -/
def oracleAccept : SigOracle := fun _ _ _ _ _ => true

/-- A managed write-protected policy: readOnly, pinned key PK1. -/
def infoReadOnly : ConfidentialEntry :=
  { pfx := "key.", algorithm := "ed25519", publicKey := "PK1",
    confidential := false, readOnly := true }

/-- A managed confidential policy: reads require a signature, pinned key PK1. -/
def infoConfidential : ConfidentialEntry :=
  { pfx := "key.", algorithm := "ed25519", publicKey := "PK1",
    confidential := true, readOnly := false }

/-- A write request claiming a key other than the pinned one. -/
def reqWrongKey : DirectoryEntry :=
  { name := "key.alpha", entry := "v1", mode := "short", publicKey := "PK2",
    algorithm := "ed25519", signature := "sig", timestamp := 0 }

/-- A write request claiming the pinned key, timestamp at the epoch. -/
def reqRightKey : DirectoryEntry :=
  { name := "key.alpha", entry := "v1", mode := "short", publicKey := "PK1",
    algorithm := "ed25519", signature := "sig", timestamp := 0 }

/-- A List request with no signature material at all. -/
def listReqNoSig : DirectoryEntries :=
  { name := "key.alpha", limit := 0, publicKey := "", algorithm := "",
    signature := "", timestamp := 0 }

/-- A List request claiming the pinned key, timestamp at the epoch. -/
def listReqSigned : DirectoryEntries :=
  { name := "key.alpha", limit := 0, publicKey := "PK1", algorithm := "ed25519",
    signature := "sig", timestamp := 0 }

/-- A store holding one value under the gated namespace. -/
def storeOne : DirStore := [("key.alpha", "v0", 3600)]

/-! Claim theorems. -/

/-- Claim C1, counterexample: on the readOnly namespace policy pinning key
PK1, a Remove request whose signature check fails (here: claimed key PK2)
leaves the store unchanged but answers with the zero response, whose status
is the empty string — not "error" as the claim states. -/
theorem remove_invalid_signature_empty_status :
    (Directory.Remove oracleReject 0 infoReadOnly storeOne reqWrongKey).1 = storeOne ∧
    (Directory.Remove oracleReject 0 infoReadOnly storeOne reqWrongKey).2.status = "" ∧
    (Directory.Remove oracleReject 0 infoReadOnly storeOne reqWrongKey).2.status ≠ "error" := by
  decide

/-- Claim C1, amended: for every policy with readOnly = true, an Add or a
Remove request whose signature check fails leaves the store unchanged and
is denied — Add answers status "error", while Remove leaves the response at
its Go zero value (empty status); with a valid signature matching the
pinned key and a timestamp within the ±24h window, the mutation is applied
to the store. -/
theorem add_remove_auth_gating (sigOk : SigOracle) (now : Int)
    (info : ConfidentialEntry) (ttl : String → Int) (store : DirStore)
    (args : DirectoryEntry) (hro : info.readOnly = true) :
    (DirectoryEntry.VerifySignature sigOk now args info ≠ VerifyResult.ok →
      (Directory.Add sigOk now info ttl store args).1 = store ∧
      (Directory.Add sigOk now info ttl store args).2.status = "error" ∧
      (Directory.Remove sigOk now info store args).1 = store ∧
      (Directory.Remove sigOk now info store args).2 = zeroResponse) ∧
    (args.publicKey = info.publicKey →
      timeInRange (now - deltaNs) (now + deltaNs) args.timestamp = true →
      sigOk info args.publicKey (entryMessage args) args.algorithm args.signature = true →
      (Directory.Add sigOk now info ttl store args).1
          = DirStore.add store args.name args.entry (ttl args.mode) ∧
      (Directory.Add sigOk now info ttl store args).2.status = "success" ∧
      (Directory.Remove sigOk now info store args).1
          = DirStore.remove store args.name args.entry ∧
      (Directory.Remove sigOk now info store args).2.status = "success") := by
  constructor
  · intro hv
    have hc : info.readOnly = true ∧
        DirectoryEntry.VerifySignature sigOk now args info ≠ VerifyResult.ok := ⟨hro, hv⟩
    have hA : Directory.Add sigOk now info ttl store args
        = (store, { status := "error" }) := by
      unfold Directory.Add; rw [if_pos hc]
    have hR : Directory.Remove sigOk now info store args
        = (store, zeroResponse) := by
      unfold Directory.Remove; rw [if_pos hc]
    rw [hA, hR]
    exact ⟨rfl, rfl, rfl, rfl⟩
  · intro hk ht hs
    have hok := verifyEntry_ok_of_valid sigOk now args info hk ht hs
    have hc : ¬(info.readOnly = true ∧
        DirectoryEntry.VerifySignature sigOk now args info ≠ VerifyResult.ok) :=
      fun h => h.2 hok
    have hA : Directory.Add sigOk now info ttl store args
        = (DirStore.add store args.name args.entry (ttl args.mode),
           { status := "success" }) := by
      unfold Directory.Add; rw [if_neg hc]
    have hR : Directory.Remove sigOk now info store args
        = (DirStore.remove store args.name args.entry, { status := "success" }) := by
      unfold Directory.Remove; rw [if_neg hc]
    rw [hA, hR]
    exact ⟨rfl, rfl, rfl, rfl⟩

/-- Claim C1, witness at concrete inputs. -/
theorem add_remove_auth_gating_witness :
    (Directory.Add oracleReject 0 infoReadOnly (fun _ => 3600) storeOne reqWrongKey).2.status
      = "error" ∧
    (Directory.Add oracleAccept 0 infoReadOnly (fun _ => 3600) storeOne reqRightKey).1
      = DirStore.add storeOne "key.alpha" "v1" 3600 := by
  constructor
  · exact ((add_remove_auth_gating oracleReject 0 infoReadOnly (fun _ => 3600) storeOne
      reqWrongKey rfl).1 (by decide)).2.1
  · exact ((add_remove_auth_gating oracleAccept 0 infoReadOnly (fun _ => 3600) storeOne
      reqRightKey rfl).2 rfl (by decide) rfl).1

/-- Claim C2, counterexample: on the confidential namespace policy, a List
call with no signature while the store holds "v0" answers with the zero
response: its entries field is the nil slice (JSON null), not the non-null
empty list the claim states. -/
theorem list_invalid_signature_null_entries :
    (Directory.List oracleReject 0 infoConfidential (Except.ok (some ["v0"])) id
        listReqNoSig).entries = none ∧
    (Directory.List oracleReject 0 infoConfidential (Except.ok (some ["v0"])) id
        listReqNoSig).entries ≠ some [] := by
  decide

/-- Claim C2, amended: on a namespace with confidential = true, a List call
with an invalid or missing signature returns the Go zero-value response,
whose entries field is null — no stored entry is revealed; every List call
that passes the confidentiality gate and whose store fetch succeeds has a
non-null entries field, and with a valid signature (and no limit cutting
the result) it returns exactly the stored values. -/
theorem list_confidential_gating (sigOk : SigOracle) (now : Int)
    (info : ConfidentialEntry) (store : DirStore) (r : Nat → Nat)
    (args : DirectoryEntries) :
    (info.confidential = true →
      DirectoryEntries.VerifySignature sigOk now args info ≠ VerifyResult.ok →
      ∀ fetch, Directory.List sigOk now info fetch r args = zeroEntriesResponse) ∧
    (∀ fetchOpt : Option (List String),
      ¬(info.confidential = true ∧
        DirectoryEntries.VerifySignature sigOk now args info ≠ VerifyResult.ok) →
      ∃ l, (Directory.List sigOk now info (Except.ok fetchOpt) r args).entries = some l) ∧
    (args.publicKey = info.publicKey →
      timeInRange (now - deltaNs) (now + deltaNs) args.timestamp = true →
      sigOk info args.publicKey (listMessage args) args.algorithm args.signature = true →
      args.limit ≤ 0 →
      (Directory.List sigOk now info
          (Except.ok (some (DirStore.list store args.name))) r args).entries
        = some (DirStore.list store args.name)) := by
  refine ⟨?_, ?_, ?_⟩
  · intro hconf hv fetch
    unfold Directory.List
    rw [if_pos ⟨hconf, hv⟩]
  · intro fetchOpt hc
    cases fetchOpt with
    | none => exact ⟨[], by simp [Directory.List, hc]⟩
    | some l =>
      by_cases hl : 0 < args.limit ∧ args.limit < (l.length : Int)
      · exact ⟨(shuffleGo r l).take args.limit.toNat, by simp [Directory.List, hc, hl]⟩
      · exact ⟨l, by simp [Directory.List, hc, hl]⟩
  · intro hk ht hs hlim
    have hok := verifyEntries_ok_of_valid sigOk now args info hk ht hs
    have hc : ¬(info.confidential = true ∧
        DirectoryEntries.VerifySignature sigOk now args info ≠ VerifyResult.ok) :=
      fun h => h.2 hok
    have hl : ¬(0 < args.limit ∧
        args.limit < ((DirStore.list store args.name).length : Int)) :=
      fun h => absurd h.1 (not_lt.mpr hlim)
    simp [Directory.List, hc, hl]

/-- Claim C2, witness at concrete inputs. -/
theorem list_confidential_gating_witness :
    Directory.List oracleReject 5 infoConfidential (Except.ok (some ["v0"])) id
        listReqNoSig = zeroEntriesResponse ∧
    (Directory.List oracleAccept 5 infoConfidential
        (Except.ok (some (DirStore.list storeOne "key.alpha"))) id
        listReqSigned).entries = some (DirStore.list storeOne "key.alpha") := by
  constructor
  · exact (list_confidential_gating oracleReject 5 infoConfidential storeOne id
      listReqNoSig).1 rfl (by decide) _
  · exact (list_confidential_gating oracleAccept 5 infoConfidential storeOne id
      listReqSigned).2.2 rfl (by decide) rfl (by decide)

/-- Payload of a gossip write as in spec Scenario C; its signature fields
are empty and play no role. -/
def gossipAddArgs : DirectoryEntry :=
  { name := "pairing", entry := "xyz", mode := "short", publicKey := "",
    algorithm := "", signature := "", timestamp := 0 }

/-- A gossip Directory.Add message carrying that payload. -/
def gossipAddMsg : P2PMessage :=
  { context := "Directory.Add", payload := Except.ok gossipAddArgs }

/-- A gossip Directory.Remove message carrying that payload. -/
def gossipRemoveMsg : P2PMessage :=
  { context := "Directory.Remove", payload := Except.ok gossipAddArgs }

/-- Claim C3: an inbound gossip message whose context is Directory.Add
(resp. Directory.Remove), whose payload parses and is not the heartbeat
marker, is applied directly to the store — Add with the TTL resolved from
the payload mode, Remove of the payload value.  The statement holds for
every payload whatever its signature fields, and `replicatorStep` takes no
policy or signature oracle at all: no policy lookup or verification
happens. -/
theorem gossip_applied_without_auth (ttl : String → Int) (now : Int)
    (s : LoopState) (m : P2PMessage) (args : DirectoryEntry)
    (hterm : s.terminated = false) (hp : m.payload = Except.ok args)
    (hhb : args.name ≠ "p2p.heartbeat") :
    (m.context = "Directory.Add" →
      replicatorStep ttl now s (LoopEvent.msg m)
        = { s with store := DirStore.add s.store args.name args.entry (ttl args.mode) }) ∧
    (m.context = "Directory.Remove" →
      replicatorStep ttl now s (LoopEvent.msg m)
        = { s with store := DirStore.remove s.store args.name args.entry }) := by
  obtain ⟨ctx, pl⟩ := m
  simp only at hp
  subst hp
  constructor
  · intro hctx
    simp only at hctx
    subst hctx
    simp [replicatorStep, hterm, hhb]
  · intro hctx
    simp only at hctx
    subst hctx
    simp [replicatorStep, hterm, hhb]

/-- Claim C3, witness at concrete inputs (spec Scenario C). -/
theorem gossip_applied_without_auth_witness :
    replicatorStep (fun _ => 3600) 7 (initialLoopState 0 storeOne)
        (LoopEvent.msg gossipAddMsg)
      = { initialLoopState 0 storeOne with
          store := DirStore.add storeOne "pairing" "xyz" 3600 } ∧
    replicatorStep (fun _ => 3600) 7 (initialLoopState 0 storeOne)
        (LoopEvent.msg gossipRemoveMsg)
      = { initialLoopState 0 storeOne with
          store := DirStore.remove storeOne "pairing" "xyz" } := by
  constructor
  · exact (gossip_applied_without_auth (fun _ => 3600) 7 (initialLoopState 0 storeOne)
      gossipAddMsg gossipAddArgs rfl rfl (by decide)).1 rfl
  · exact (gossip_applied_without_auth (fun _ => 3600) 7 (initialLoopState 0 storeOne)
      gossipRemoveMsg gossipAddArgs rfl rfl (by decide)).2 rfl

/-- A well-formed heartbeat payload, as published by the loop itself:
payload name "p2p.heartbeat" under context Directory.Add. -/
def heartbeatArgs : DirectoryEntry :=
  { name := "p2p.heartbeat", entry := "123", mode := "short", publicKey := "",
    algorithm := "", signature := "", timestamp := 0 }

/-- A heartbeat message as it arrives on the gossip channel. -/
def heartbeatMsg : P2PMessage :=
  { context := "Directory.Add", payload := Except.ok heartbeatArgs }

/-- Claim C4: the timeout window starts at 15 minutes; a heartbeat sets it
to 3 minutes; a step either keeps the window or sets it to 3 minutes, and
once it is 3 minutes every further run keeps it there (it never grows
again); ticks never refresh the liveness timer, so over any message-free
trace `lastHeartbeat` is unchanged; and a tick that finds the silence
longer than the current window terminates the process. -/
theorem liveness_timeout_protocol (ttl : String → Int) :
    (∀ (now : Int) (store : DirStore),
      (initialLoopState now store).timeoutDelay = fifteenMinutes) ∧
    (∀ (now : Int) (s : LoopState) (m : P2PMessage) (args : DirectoryEntry),
      s.terminated = false → m.payload = Except.ok args →
      args.name = "p2p.heartbeat" →
      (replicatorStep ttl now s (LoopEvent.msg m)).timeoutDelay = threeMinutes ∧
      (replicatorStep ttl now s (LoopEvent.msg m)).lastHeartbeat = now) ∧
    (∀ (now : Int) (s : LoopState) (e : LoopEvent),
      (replicatorStep ttl now s e).timeoutDelay = s.timeoutDelay ∨
      (replicatorStep ttl now s e).timeoutDelay = threeMinutes) ∧
    (∀ (s : LoopState) (tr : List (Int × LoopEvent)),
      s.timeoutDelay = threeMinutes →
      (runLoop ttl s tr).timeoutDelay = threeMinutes) ∧
    (∀ (s : LoopState) (tr : List (Int × LoopEvent)),
      (∀ te ∈ tr, te.2 = LoopEvent.tick) →
      (runLoop ttl s tr).lastHeartbeat = s.lastHeartbeat) ∧
    (∀ (now : Int) (s : LoopState),
      s.terminated = false → now - s.lastHeartbeat > s.timeoutDelay →
      replicatorStep ttl now s LoopEvent.tick = { s with terminated := true }) := by
  refine ⟨fun _ _ => rfl, ?_, ?_, ?_, ?_, ?_⟩
  · intro now s m args hterm hp hname
    rw [replicatorStep_heartbeat ttl now s m args hterm hp hname]
    exact ⟨rfl, rfl⟩
  · exact fun now s e => replicatorStep_delay_cases ttl now s e
  · exact fun s tr h => runLoop_delay_three ttl tr s h
  · exact fun s tr h => runLoop_lastHeartbeat_of_ticks ttl tr s h
  · intro now s hterm hq
    unfold replicatorStep
    rw [if_neg (by simp [hterm]), if_pos hq]

/-- Claim C4, witness at concrete inputs. -/
theorem liveness_timeout_protocol_witness :
    (initialLoopState 0 storeOne).timeoutDelay = fifteenMinutes ∧
    (replicatorStep (fun _ => 3600) 40 (initialLoopState 0 storeOne)
        (LoopEvent.msg heartbeatMsg)).timeoutDelay = threeMinutes ∧
    (runLoop (fun _ => 3600)
        { timeoutDelay := threeMinutes, lastHeartbeat := 0, store := storeOne,
          terminated := false } [(30, LoopEvent.tick)]).timeoutDelay = threeMinutes ∧
    replicatorStep (fun _ => 3600) (fifteenMinutes + 1) (initialLoopState 0 storeOne)
        LoopEvent.tick
      = { initialLoopState 0 storeOne with terminated := true } := by
  refine ⟨(liveness_timeout_protocol (fun _ => 3600)).1 0 storeOne, ?_, ?_, ?_⟩
  · exact ((liveness_timeout_protocol (fun _ => 3600)).2.1 40 (initialLoopState 0 storeOne)
      heartbeatMsg heartbeatArgs rfl rfl rfl).1
  · exact (liveness_timeout_protocol (fun _ => 3600)).2.2.2.1
      { timeoutDelay := threeMinutes, lastHeartbeat := 0, store := storeOne,
        terminated := false } [(30, LoopEvent.tick)] rfl
  · exact (liveness_timeout_protocol (fun _ => 3600)).2.2.2.2.2 (fifteenMinutes + 1)
      (initialLoopState 0 storeOne) rfl (by decide)

/-- An unmanaged policy: all identifying fields empty, no auth required. -/
def infoUnmanaged : ConfidentialEntry :=
  { pfx := "", algorithm := "", publicKey := "", confidential := false,
    readOnly := false }

/-- A List request with the pinned key and a timestamp two days ahead. -/
def listReqStale : DirectoryEntries :=
  { name := "key.alpha", limit := 0, publicKey := "PK1", algorithm := "ed25519",
    signature := "sig", timestamp := 2 * deltaNs }

/-- A List request with the wrong key and a timestamp two days ahead. -/
def listReqStaleWrongKey : DirectoryEntries :=
  { name := "key.alpha", limit := 0, publicKey := "PK2", algorithm := "ed25519",
    signature := "sig", timestamp := 2 * deltaNs }

/-- Claim C5: both VerifySignature methods check in this order — an
unmanaged policy succeeds unconditionally for every request; on a managed
policy a claimed key different from the pinned key yields keyMismatch
whatever the timestamp; with a matching key an out-of-window timestamp
yields timestampOutOfRange whatever the oracle; only with a matching key
and an in-window timestamp does the outcome depend on the cryptographic
check. -/
theorem verify_check_order (sigOk : SigOracle) (now : Int)
    (info : ConfidentialEntry) :
    (unmanaged info = true →
      (∀ p : DirectoryEntries,
        DirectoryEntries.VerifySignature sigOk now p info = VerifyResult.ok) ∧
      (∀ p : DirectoryEntry,
        DirectoryEntry.VerifySignature sigOk now p info = VerifyResult.ok)) ∧
    (unmanaged info = false →
      (∀ p : DirectoryEntries, p.publicKey ≠ info.publicKey →
        DirectoryEntries.VerifySignature sigOk now p info = VerifyResult.keyMismatch) ∧
      (∀ p : DirectoryEntry, p.publicKey ≠ info.publicKey →
        DirectoryEntry.VerifySignature sigOk now p info = VerifyResult.keyMismatch)) ∧
    (unmanaged info = false →
      (∀ p : DirectoryEntries, p.publicKey = info.publicKey →
        timeInRange (now - deltaNs) (now + deltaNs) p.timestamp = false →
        DirectoryEntries.VerifySignature sigOk now p info
          = VerifyResult.timestampOutOfRange) ∧
      (∀ p : DirectoryEntry, p.publicKey = info.publicKey →
        timeInRange (now - deltaNs) (now + deltaNs) p.timestamp = false →
        DirectoryEntry.VerifySignature sigOk now p info
          = VerifyResult.timestampOutOfRange)) ∧
    (unmanaged info = false →
      (∀ p : DirectoryEntries, p.publicKey = info.publicKey →
        timeInRange (now - deltaNs) (now + deltaNs) p.timestamp = true →
        DirectoryEntries.VerifySignature sigOk now p info
          = (if sigOk info p.publicKey (listMessage p) p.algorithm p.signature = true
             then VerifyResult.ok else VerifyResult.badSignature)) ∧
      (∀ p : DirectoryEntry, p.publicKey = info.publicKey →
        timeInRange (now - deltaNs) (now + deltaNs) p.timestamp = true →
        DirectoryEntry.VerifySignature sigOk now p info
          = (if sigOk info p.publicKey (entryMessage p) p.algorithm p.signature = true
             then VerifyResult.ok else VerifyResult.badSignature))) := by
  refine ⟨?_, ?_, ?_, ?_⟩
  · intro hu
    constructor
    · intro p; unfold DirectoryEntries.VerifySignature; rw [if_pos hu]
    · intro p; unfold DirectoryEntry.VerifySignature; rw [if_pos hu]
  · intro hu
    constructor
    · intro p hk
      unfold DirectoryEntries.VerifySignature
      rw [if_neg (by simp [hu]), if_pos hk]
    · intro p hk
      unfold DirectoryEntry.VerifySignature
      rw [if_neg (by simp [hu]), if_pos hk]
  · intro hu
    constructor
    · intro p hk ht
      unfold DirectoryEntries.VerifySignature
      rw [if_neg (by simp [hu]), if_neg (by simp [hk]), if_pos ht]
    · intro p hk ht
      unfold DirectoryEntry.VerifySignature
      rw [if_neg (by simp [hu]), if_neg (by simp [hk]), if_pos ht]
  · intro hu
    constructor
    · intro p hk ht
      unfold DirectoryEntries.VerifySignature
      rw [if_neg (by simp [hu]), if_neg (by simp [hk]), if_neg (by simp [ht])]
    · intro p hk ht
      unfold DirectoryEntry.VerifySignature
      rw [if_neg (by simp [hu]), if_neg (by simp [hk]), if_neg (by simp [ht])]

/-- Claim C5, witness at concrete inputs: one request per branch. -/
theorem verify_check_order_witness :
    DirectoryEntries.VerifySignature oracleReject 0 listReqNoSig infoUnmanaged
      = VerifyResult.ok ∧
    DirectoryEntries.VerifySignature oracleAccept 0 listReqNoSig infoReadOnly
      = VerifyResult.keyMismatch ∧
    DirectoryEntries.VerifySignature oracleAccept 0 listReqStale infoReadOnly
      = VerifyResult.timestampOutOfRange ∧
    DirectoryEntries.VerifySignature oracleReject 0 listReqSigned infoReadOnly
      = VerifyResult.badSignature := by
  refine ⟨?_, ?_, ?_, ?_⟩
  · exact ((verify_check_order oracleReject 0 infoUnmanaged).1 (by decide)).1 listReqNoSig
  · exact ((verify_check_order oracleAccept 0 infoReadOnly).2.1 (by decide)).1
      listReqNoSig (by decide)
  · exact ((verify_check_order oracleAccept 0 infoReadOnly).2.2.1 (by decide)).1
      listReqStale rfl (by decide)
  · exact (((verify_check_order oracleReject 0 infoReadOnly).2.2.2 (by decide)).1
      listReqSigned rfl (by decide)).trans (by decide)

/-- Claim C6: the canonical List message is name, dot, millisecond-truncated
timestamp; the canonical Add/Remove message is name, dot, nanosecond
timestamp, dot, entry value.  For the same name and timestamp the two are
never equal (the decimal rendering of an integer contains no dot, while the
Add/Remove tail always contains one), so a signature over one canonical
form cannot be checked against the other. -/
theorem canonical_messages_differ (p : DirectoryEntries) (q : DirectoryEntry)
    (hn : p.name = q.name) (ht : p.timestamp = q.timestamp) (he : q.entry ≠ "") :
    listMessage p = p.name ++ "." ++ toString (Int.tdiv p.timestamp 1000000) ∧
    entryMessage q = q.name ++ "." ++ toString q.timestamp ++ "." ++ q.entry ∧
    listMessage p ≠ entryMessage q := by
  refine ⟨rfl, rfl, ?_⟩
  intro h
  unfold listMessage entryMessage at h
  rw [hn, ht] at h
  have hc := congrArg (fun s : String => s.data.count '.') h
  have h1 : (toString (Int.tdiv q.timestamp 1000000)).data.count '.' = 0 :=
    List.count_eq_zero.mpr (dot_not_mem_int_toString (Int.tdiv q.timestamp 1000000))
  have h2 : (toString q.timestamp).data.count '.' = 0 :=
    List.count_eq_zero.mpr (dot_not_mem_int_toString q.timestamp)
  have hdot : (".").data.count '.' = 1 := rfl
  simp only [String.data_append, List.count_append, h1, h2, hdot] at hc
  omega

/-- Claim C6, witness at concrete inputs. -/
theorem canonical_messages_differ_witness :
    listReqSigned.name = reqRightKey.name ∧
    listReqSigned.timestamp = reqRightKey.timestamp ∧
    reqRightKey.entry ≠ "" ∧
    listMessage listReqSigned ≠ entryMessage reqRightKey := by
  refine ⟨rfl, rfl, by decide, ?_⟩
  exact (canonical_messages_differ listReqSigned reqRightKey rfl rfl (by decide)).2.2

/-- Claim C7, counterexample: on a managed policy, a signed request whose
timestamp is out of window but whose claimed key also differs from the
pinned key fails with keyMismatch, not with the timestamp-range error the
claim promises for every out-of-window request. -/
theorem key_mismatch_masks_timestamp_error :
    timeInRange (0 - deltaNs) (0 + deltaNs) listReqStaleWrongKey.timestamp = false ∧
    DirectoryEntries.VerifySignature oracleAccept 0 listReqStaleWrongKey infoReadOnly
      ≠ VerifyResult.timestampOutOfRange ∧
    DirectoryEntries.VerifySignature oracleAccept 0 listReqStaleWrongKey infoReadOnly
      = VerifyResult.keyMismatch := by
  decide

/-- Claim C7, amended: for every managed policy and every signed request
whose claimed public key equals the pinned key, verification fails with
the timestamp-range error whenever the timestamp does not lie strictly
between now - 24h and now + 24h, for both request kinds and regardless of
the cryptographic oracle; the window excludes its endpoints, so a
timestamp exactly 24 hours away, or further, is rejected. -/
theorem timestamp_window_rejection (sigOk : SigOracle) (now : Int)
    (info : ConfidentialEntry) (hm : unmanaged info = false) :
    (∀ p : DirectoryEntries, p.publicKey = info.publicKey →
      timeInRange (now - deltaNs) (now + deltaNs) p.timestamp = false →
      DirectoryEntries.VerifySignature sigOk now p info
        = VerifyResult.timestampOutOfRange) ∧
    (∀ p : DirectoryEntry, p.publicKey = info.publicKey →
      timeInRange (now - deltaNs) (now + deltaNs) p.timestamp = false →
      DirectoryEntry.VerifySignature sigOk now p info
        = VerifyResult.timestampOutOfRange) ∧
    timeInRange (now - deltaNs) (now + deltaNs) (now - deltaNs) = false ∧
    timeInRange (now - deltaNs) (now + deltaNs) (now + deltaNs) = false ∧
    (∀ t : Int, t ≤ now - deltaNs ∨ now + deltaNs ≤ t →
      timeInRange (now - deltaNs) (now + deltaNs) t = false) := by
  refine ⟨?_, ?_, ?_, ?_, ?_⟩
  · intro p hk ht
    unfold DirectoryEntries.VerifySignature
    rw [if_neg (by simp [hm]), if_neg (by simp [hk]), if_pos ht]
  · intro p hk ht
    unfold DirectoryEntry.VerifySignature
    rw [if_neg (by simp [hm]), if_neg (by simp [hk]), if_pos ht]
  · simp [timeInRange]
  · simp [timeInRange]
  · intro t h
    unfold timeInRange
    rcases h with h | h
    · have : ¬(now - deltaNs < t) := by omega
      simp [this]
    · have : ¬(t < now + deltaNs) := by omega
      simp [this]

/-- Claim C7, witness at concrete inputs. -/
theorem timestamp_window_rejection_witness :
    DirectoryEntries.VerifySignature oracleAccept 0 listReqStale infoReadOnly
      = VerifyResult.timestampOutOfRange ∧
    timeInRange (0 - deltaNs) (0 + deltaNs) deltaNs = false := by
  constructor
  · exact (timestamp_window_rejection oracleAccept 0 infoReadOnly (by decide)).1
      listReqStale rfl (by decide)
  · exact (timestamp_window_rejection oracleAccept 0 infoReadOnly (by decide)).2.2.2.2
      deltaNs (Or.inr (by omega))

/-- An unauthenticated List request asking for at most 2 entries. -/
def listReqLimit2 : DirectoryEntries :=
  { name := "pairing", limit := 2, publicKey := "", algorithm := "",
    signature := "", timestamp := 0 }

/-- Claim C8: on a List call that passes the policy check, when
0 < limit < n (the number of fetched entries) the response is the shuffled
fetch truncated to limit — exactly limit entries, each a member of the
fetched list; otherwise the response is the fetched list in full. -/
theorem list_limit_sampling (sigOk : SigOracle) (now : Int)
    (info : ConfidentialEntry) (r : Nat → Nat) (args : DirectoryEntries)
    (l : List String)
    (hpass : ¬(info.confidential = true ∧
      DirectoryEntries.VerifySignature sigOk now args info ≠ VerifyResult.ok)) :
    (0 < args.limit → args.limit < (l.length : Int) →
      (Directory.List sigOk now info (Except.ok (some l)) r args).entries
        = some ((shuffleGo r l).take args.limit.toNat) ∧
      (((shuffleGo r l).take args.limit.toNat).length : Int) = args.limit ∧
      ∀ x ∈ (shuffleGo r l).take args.limit.toNat, x ∈ l) ∧
    (args.limit ≤ 0 ∨ (l.length : Int) ≤ args.limit →
      (Directory.List sigOk now info (Except.ok (some l)) r args).entries = some l) := by
  constructor
  · intro h1 h2
    refine ⟨by simp [Directory.List, hpass, h1, h2], ?_, ?_⟩
    · rw [List.length_take, shuffleGo_length]
      omega
    · intro x hx
      exact shuffleGo_mem (List.mem_of_mem_take hx)
  · intro h
    have hl : ¬(0 < args.limit ∧ args.limit < (l.length : Int)) := by
      intro hc
      rcases h with h | h <;> omega
    simp [Directory.List, hpass, hl]

/-- Claim C8, witness at concrete inputs: four entries, limit 2. -/
theorem list_limit_sampling_witness :
    (Directory.List oracleReject 0 infoUnmanaged
        (Except.ok (some ["a", "b", "c", "d"])) (fun n => n + 1)
        listReqLimit2).entries
      = some ((shuffleGo (fun n => n + 1) ["a", "b", "c", "d"]).take 2) ∧
    (((shuffleGo (fun n => n + 1) ["a", "b", "c", "d"]).take 2).length : Int) = 2 := by
  constructor
  · exact ((list_limit_sampling oracleReject 0 infoUnmanaged (fun n => n + 1)
      listReqLimit2 ["a", "b", "c", "d"] (by decide)).1 (by decide) (by decide)).1
  · exact ((list_limit_sampling oracleReject 0 infoUnmanaged (fun n => n + 1)
      listReqLimit2 ["a", "b", "c", "d"] (by decide)).1 (by decide) (by decide)).2.1

/-- A non-heartbeat payload delivered under the context "p2p.heartbeat". -/
def fakeHeartbeatArgs : DirectoryEntry :=
  { name := "key.alpha", entry := "v1", mode := "short", publicKey := "",
    algorithm := "", signature := "", timestamp := 0 }

/-- A message whose context is "p2p.heartbeat" but whose payload is not the
heartbeat marker. -/
def fakeHeartbeatMsg : P2PMessage :=
  { context := "p2p.heartbeat", payload := Except.ok fakeHeartbeatArgs }

/-- Claim C9, counterexample: a message whose context equals
"p2p.heartbeat" but whose parsed payload name differs is not treated as a
heartbeat — the loop neither shrinks the timeout window nor refreshes
lastHeartbeat (the state is completely unchanged), so only one of the two
claimed heartbeat forms is recognized. -/
theorem heartbeat_context_not_recognized :
    (replicatorStep (fun _ => 3600) 100 (initialLoopState 0 storeOne)
        (LoopEvent.msg fakeHeartbeatMsg)).timeoutDelay = fifteenMinutes ∧
    (replicatorStep (fun _ => 3600) 100 (initialLoopState 0 storeOne)
        (LoopEvent.msg fakeHeartbeatMsg)).timeoutDelay ≠ threeMinutes ∧
    (replicatorStep (fun _ => 3600) 100 (initialLoopState 0 storeOne)
        (LoopEvent.msg fakeHeartbeatMsg)).lastHeartbeat = 0 ∧
    replicatorStep (fun _ => 3600) 100 (initialLoopState 0 storeOne)
        (LoopEvent.msg fakeHeartbeatMsg) = initialLoopState 0 storeOne := by
  decide

/-- Claim C9, amended: the replicator recognizes a message as a heartbeat
exactly when the parsed payload name is "p2p.heartbeat"; the message
context is never consulted for heartbeat detection, so a message whose
context is "p2p.heartbeat" (hence neither Directory.Add nor
Directory.Remove) with any other payload name changes nothing. -/
theorem heartbeat_payload_name_only (ttl : String → Int) (now : Int)
    (s : LoopState) (m : P2PMessage) (args : DirectoryEntry)
    (hterm : s.terminated = false) (hp : m.payload = Except.ok args) :
    (args.name = "p2p.heartbeat" →
      replicatorStep ttl now s (LoopEvent.msg m)
        = { s with timeoutDelay := threeMinutes, lastHeartbeat := now }) ∧
    (args.name ≠ "p2p.heartbeat" → m.context ≠ "Directory.Add" →
      m.context ≠ "Directory.Remove" →
      replicatorStep ttl now s (LoopEvent.msg m) = s) := by
  obtain ⟨ctx, pl⟩ := m
  simp only at hp
  subst hp
  constructor
  · intro hname
    exact replicatorStep_heartbeat ttl now s ⟨ctx, Except.ok args⟩ args hterm rfl hname
  · intro hname hadd hrem
    simp only at hadd hrem
    simp [replicatorStep, hterm, hname, hadd, hrem]

/-- Claim C9, witness at concrete inputs. -/
theorem heartbeat_payload_name_only_witness :
    replicatorStep (fun _ => 3600) 100 (initialLoopState 0 storeOne)
        (LoopEvent.msg heartbeatMsg)
      = { initialLoopState 0 storeOne with
          timeoutDelay := threeMinutes, lastHeartbeat := 100 } ∧
    replicatorStep (fun _ => 3600) 100 (initialLoopState 0 storeOne)
        (LoopEvent.msg fakeHeartbeatMsg) = initialLoopState 0 storeOne := by
  constructor
  · exact (heartbeat_payload_name_only (fun _ => 3600) 100 (initialLoopState 0 storeOne)
      heartbeatMsg heartbeatArgs rfl rfl).1 rfl
  · exact (heartbeat_payload_name_only (fun _ => 3600) 100 (initialLoopState 0 storeOne)
      fakeHeartbeatMsg fakeHeartbeatArgs rfl rfl).2 (by decide) (by decide) (by decide)

/-- Claim C10: a well-formed payload named "p2p.heartbeat" — whatever the
message context, including "Directory.Add" as the loop itself publishes —
only refreshes the liveness pair: the store is untouched (no Add and no
Remove happens) and the whole state change is exactly the two liveness
fields. -/
theorem heartbeat_frame_no_store_write (ttl : String → Int) (now : Int)
    (s : LoopState) (m : P2PMessage) (args : DirectoryEntry)
    (hterm : s.terminated = false) (hp : m.payload = Except.ok args)
    (hname : args.name = "p2p.heartbeat") :
    (replicatorStep ttl now s (LoopEvent.msg m)).store = s.store ∧
    (replicatorStep ttl now s (LoopEvent.msg m)).terminated = s.terminated ∧
    replicatorStep ttl now s (LoopEvent.msg m)
      = { s with timeoutDelay := threeMinutes, lastHeartbeat := now } := by
  rw [replicatorStep_heartbeat ttl now s m args hterm hp hname]
  exact ⟨rfl, rfl, rfl⟩

/-- Claim C10, witness at concrete inputs: the heartbeat arrives under
context Directory.Add and the store is left as it was. -/
theorem heartbeat_frame_no_store_write_witness :
    heartbeatMsg.context = "Directory.Add" ∧
    (replicatorStep (fun _ => 3600) 42 (initialLoopState 0 storeOne)
        (LoopEvent.msg heartbeatMsg)).store = storeOne := by
  refine ⟨rfl, ?_⟩
  exact (heartbeat_frame_no_store_write (fun _ => 3600) 42 (initialLoopState 0 storeOne)
    heartbeatMsg heartbeatArgs rfl rfl rfl).1
